import Mathlib

/-!
Shallow embedding of the SimplePTN Petri-net engine
(`include/SimplePTN/place.hpp`, `transition.hpp`, `petri_net.hpp`,
instantiated at the default template arguments `ID = std::string`,
`TokenCounter = uint32_t`).

Modelling conventions:
* `uint32_t` token counts are `Nat` values `< 2^32`; the C++ `+`/`-`
  operators wrap modulo `2^32`, modelled by `addU32`/`subU32`.
* C++ `shared_ptr<Place>` references inside a `Transition` are replaced by
  the place's id together with a net-level lookup (`findPlaceAcquired`);
  this is observationally equivalent because place ids are unique within a
  net (enforced by `addPlaceAcquired`) and every reference held by a
  transition is created from a successful lookup.
* The single change listener `on_change_` (a `std::function` slot) is
  modelled by an opaque tag `Option Nat`: only its presence and identity
  matter to the claims.  A `fire` returns the recorded notification list
  (place id, previous count) in push order; `notifyRun` filters it down to
  the actual listener invocations, mirroring `Place::changed`.
* The auto-fire predicate `evaluate_condition_` is modelled by
  `Option CondFn` where `CondFn` denotes the predicate's evaluation
  (`autoFire()` installs the always-true predicate; an absent predicate is
  `none`, matching the `nullptr` check in `Transition::tick`).
* `throw` of `std::invalid_argument` / `std::runtime_error` is modelled by
  `Except PTNError`; the mutually recursive `deepTick` traversal takes a
  fuel argument (`none` = fuel exhausted, never reached on the concrete
  nets considered here).
-/

namespace SimplePTN

/-- 2^32, the modulus of `uint32_t` arithmetic. -/
def U32M : Nat := 4294967296

/-- `uint32_t` addition (`tokens_ + weight` in `Transition::fire`). -/
def addU32 (a b : Nat) : Nat := (a + b) % U32M

/-- `uint32_t` subtraction (`tokens_ - weight` in `Transition::fire`);
wraps modulo 2^32 on underflow exactly like the C++ operator. -/
def subU32 (a b : Nat) : Nat := (a + U32M - b % U32M) % U32M

/-- Denotation of an installed auto-fire predicate at evaluation time.
`always` is the predicate installed by the zero-argument `autoFire()`;
`never` denotes a predicate currently evaluating to false. -/
inductive CondFn
  | always
  | never
deriving DecidableEq, Repr

/-- Evaluate the predicate (the call `evaluate_condition_(*this)`). -/
def CondFn.eval : CondFn → Bool
  | .always => true
  | .never => false

/-- `sptn::Place<std::string, uint32_t>`: id, token count, listener slot
`on_change_`, and the two adjacency lists `ingoing_to_` / `outgoing_to_`
(ids of the transitions this place is an input of, resp. an output of). -/
structure Place where
  id : String
  tokens : Nat
  onChange : Option Nat
  ingoingTo : List String
  outgoingTo : List String
deriving DecidableEq, Repr

/-- `sptn::Transition<std::string, uint32_t>`: id, the `ingoing_` and
`outgoing_` weight-pair lists (place id, weight), and the auto-fire
predicate slot `evaluate_condition_`. -/
structure Transition where
  id : String
  ingoing : List (String × Nat)
  outgoing : List (String × Nat)
  cond : Option CondFn
deriving DecidableEq, Repr

/-- `PetriNet::TransitionSketch`: blueprint of a transition by place ids. -/
structure TransitionSketch where
  id : String
  ingoing : List (String × Nat)
  outgoing : List (String × Nat)
deriving DecidableEq, Repr

/-- `sptn::PetriNet<std::string, uint32_t>`: the owned place and transition
collections in insertion order (`places_`, `transitions_`). -/
structure PetriNet where
  places : List Place
  transitions : List Transition
deriving DecidableEq, Repr

/-- The exceptions thrown by the engine: `std::invalid_argument` for
duplicate/unknown identities, `std::runtime_error("Cycle detected")`. -/
inductive PTNError
  | duplicateIdentity
  | unknownIdentity
  | cycleDetected
deriving DecidableEq, Repr

/-- `PetriNet::findPlaceAcquired`: linear scan for the first place with the
given id. -/
def PetriNet.findPlaceAcquired (net : PetriNet) (id : String) : Option Place :=
  net.places.find? (fun p => p.id == id)

/-- `PetriNet::findTransitionAcquired`. -/
def PetriNet.findTransitionAcquired (net : PetriNet) (id : String) : Option Transition :=
  net.transitions.find? (fun t => t.id == id)

/-- Update the first place with the given id (mutation through the
`shared_ptr` returned by `findPlaceAcquired`). -/
def updFirstPlace (pid : String) (f : Place → Place) : List Place → List Place
  | [] => []
  | p :: ps => if p.id == pid then f p :: ps else p :: updFirstPlace pid f ps

/-- Apply `f` to the place with id `pid` of the net. -/
def PetriNet.updPlace (net : PetriNet) (pid : String) (f : Place → Place) : PetriNet :=
  { net with places := updFirstPlace pid f net.places }

/-- Update the first transition with the given id. -/
def updFirstTransition (tid : String) (f : Transition → Transition) :
    List Transition → List Transition
  | [] => []
  | t :: ts => if t.id == tid then f t :: ts else t :: updFirstTransition tid f ts

/-- `findTransitionAcquired(id)->evaluate_condition_ = c` /
`findTransition(id)->autoFire(c)`: install or clear the predicate. -/
def PetriNet.setCond (net : PetriNet) (tid : String) (c : Option CondFn) : PetriNet :=
  { net with transitions := updFirstTransition tid (fun t => { t with cond := c }) net.transitions }

/-- Current token count of the place with the given id (`tokens_` read
through the reference a transition holds); defaults to 0 for an id that
does not resolve, which never happens for references created by
`addTransitionAcquired`. -/
def PetriNet.tokensOf (net : PetriNet) (pid : String) : Nat :=
  ((net.findPlaceAcquired pid).map Place.tokens).getD 0

/-- `PetriNet::addPlaceAcquired`: reject a duplicate id, otherwise append a
fresh place with no listener and empty adjacency. -/
def PetriNet.addPlaceAcquired (net : PetriNet) (id : String) (initialTokens : Nat) :
    Except PTNError PetriNet :=
  if (net.findPlaceAcquired id).isSome then .error .duplicateIdentity
  else .ok { net with
    places := net.places ++
      [{ id := id, tokens := initialTokens, onChange := none, ingoingTo := [], outgoingTo := [] }] }

/-- `PetriNet::addTransitionAcquired`: duplicate-id check, resolution of
every referenced place id (throwing `UnknownIdentity` on a miss), then
registration of the transition and of the bidirectional adjacency
(`place->ingoing_to_.push_back` for inputs, `outgoing_to_` for outputs). -/
def PetriNet.addTransitionAcquired (net : PetriNet) (sk : TransitionSketch) :
    Except PTNError PetriNet :=
  if (net.findTransitionAcquired sk.id).isSome then .error .duplicateIdentity
  else if sk.ingoing.any (fun pr => (net.findPlaceAcquired pr.1).isNone) then
    .error .unknownIdentity
  else if sk.outgoing.any (fun pr => (net.findPlaceAcquired pr.1).isNone) then
    .error .unknownIdentity
  else
    let net1 : PetriNet := { net with
      transitions := net.transitions ++
        [{ id := sk.id, ingoing := sk.ingoing, outgoing := sk.outgoing, cond := none }] }
    let net2 := sk.ingoing.foldl
      (fun n pr => n.updPlace pr.1 (fun p => { p with ingoingTo := p.ingoingTo ++ [sk.id] })) net1
    let net3 := sk.outgoing.foldl
      (fun n pr => n.updPlace pr.1 (fun p => { p with outgoingTo := p.outgoingTo ++ [sk.id] })) net2
    .ok net3

/-- `Transition::readyAcquired`: every input place currently holds at least
the pair's weight; each pair is checked independently against the current
marking. -/
def Transition.readyAcquired (net : PetriNet) (t : Transition) : Bool :=
  t.ingoing.all (fun pr => decide (pr.2 ≤ net.tokensOf pr.1))

/-- One step of the mutation loop of `Transition::fire`: record the
pre-mutation count of the pair's place in `places_to_notify`, then apply
`op` (subtraction for inputs, addition for outputs) to its tokens. -/
def fireStep (op : Nat → Nat → Nat) (acc : PetriNet × List (String × Nat))
    (pr : String × Nat) : PetriNet × List (String × Nat) :=
  (acc.1.updPlace pr.1 (fun p => { p with tokens := op p.tokens pr.2 }),
   acc.2 ++ [(pr.1, acc.1.tokensOf pr.1)])

/-- `Transition::fire`: under the exclusive lock, re-check readiness; if
ready, one pass over inputs (subtract) then outputs (add), pushing one
`(place, previous count)` record per weight pair.  Returns (fired?, net
after the mutation phase, the recorded notification list). -/
def Transition.fire (net : PetriNet) (t : Transition) :
    Bool × PetriNet × List (String × Nat) :=
  if t.readyAcquired net then
    let acc1 := t.ingoing.foldl (fireStep subU32) (net, [])
    let acc2 := t.outgoing.foldl (fireStep addU32) acc1
    (true, acc2.1, acc2.2)
  else (false, net, [])

/-- The notification loop after the lock is released: `place->changed(prev)`
for every recorded pair, which invokes the listener iff one is installed.
Result: the sequence of actual listener invocations (place id, prev). -/
def PetriNet.notifyRun (net : PetriNet) (notes : List (String × Nat)) :
    List (String × Nat) :=
  notes.filter (fun pr => ((net.findPlaceAcquired pr.1).bind Place.onChange).isSome)

/-- `Transition::tick`: fire only when a predicate is installed and
evaluates to true; otherwise return false without side effects. -/
def Transition.tick (net : PetriNet) (t : Transition) :
    Bool × PetriNet × List (String × Nat) :=
  match t.cond with
  | some c => if c.eval then t.fire net else (false, net, [])
  | none => (false, net, [])

/-- `PetriNet::tick`: one flat pass over the transitions in registration
order (`fire` mutates only places, so the transition list is stable). -/
def PetriNet.tick (net : PetriNet) : PetriNet :=
  net.transitions.foldl (fun n t => (Transition.tick n t).2.1) net

mutual

/-- `Place::deepTick(seen)`: throw `CycleDetected` when this place is
already on the current DFS path, otherwise insert it, cascade to every
transition in `ingoing_to_`, and (implicitly, by passing `seen`
functionally) remove it on return. -/
def placeDeepTick : Nat → PetriNet → String → List String →
    Option (Except PTNError PetriNet)
  | 0, _, _, _ => none
  | fuel + 1, net, pid, seen =>
    if seen.contains pid then some (.error .cycleDetected)
    else
      cascadeTransitions fuel net (((net.findPlaceAcquired pid).map Place.ingoingTo).getD [])
        (pid :: seen)

/-- The loop `for (auto &transition : ingoing_to_) transition->deepTick(seen)`. -/
def cascadeTransitions : Nat → PetriNet → List String → List String →
    Option (Except PTNError PetriNet)
  | _, net, [], _ => some (.ok net)
  | 0, _, _ :: _, _ => none
  | fuel + 1, net, tid :: rest, seen =>
    match transitionDeepTick fuel net tid seen with
    | none => none
    | some (.error e) => some (.error e)
    | some (.ok net1) => cascadeTransitions fuel net1 rest seen

/-- `Transition::deepTick(seen)`: `if (this->tick()) { for place in
outgoing_: place->deepTick(seen); }` — the cascade step goes through
`tick()`, i.e. through the auto-fire predicate. -/
def transitionDeepTick : Nat → PetriNet → String → List String →
    Option (Except PTNError PetriNet)
  | 0, _, _, _ => none
  | _fuel + 1, net, tid, seen =>
    match net.findTransitionAcquired tid with
    | none => some (.ok net)
    | some t =>
      let r := Transition.tick net t
      if r.1 then cascadePlaces _fuel r.2.1 (t.outgoing.map Prod.fst) seen
      else some (.ok r.2.1)

/-- The loop `for (auto &[place, _] : outgoing_) place->deepTick(seen)`. -/
def cascadePlaces : Nat → PetriNet → List String → List String →
    Option (Except PTNError PetriNet)
  | _, net, [], _ => some (.ok net)
  | 0, _, _ :: _, _ => none
  | fuel + 1, net, pid :: rest, seen =>
    match placeDeepTick fuel net pid seen with
    | none => none
    | some (.error e) => some (.error e)
    | some (.ok net1) => cascadePlaces fuel net1 rest seen

end

/-- `PetriNet::deepTick(start_place_id)`: `UnknownIdentity` when the id does
not resolve, otherwise the place's cascading `deepTick` with a fresh path
set. -/
def PetriNet.deepTick (fuel : Nat) (net : PetriNet) (startId : String) :
    Option (Except PTNError PetriNet) :=
  match net.findPlaceAcquired startId with
  | none => some (.error .unknownIdentity)
  | some _ => placeDeepTick fuel net startId []

/-- The body of `PetriNet::deepTickCover`: `this->deepTick(place->getID())`
for every registered place in order; an exception aborts the loop. -/
def coverLoop (fuel : Nat) : PetriNet → List String → Option (Except PTNError PetriNet)
  | net, [] => some (.ok net)
  | net, pid :: rest =>
    match PetriNet.deepTick fuel net pid with
    | none => none
    | some (.error e) => some (.error e)
    | some (.ok net1) => coverLoop fuel net1 rest

/-- Outcome of calling a C++ function declared `noexcept(true)`: either it
completes, or an exception escaping its body hits the noexcept boundary
and `std::terminate` is called. -/
inductive CoverOutcome
  | completed (net : PetriNet)
  | terminated
deriving DecidableEq, Repr

/-- `PetriNet::deepTickCover`: declared `noexcept(true)` in the source even
though its body calls the throwing `deepTick`, so a `CycleDetected`
escaping the loop terminates the program instead of reaching the caller. -/
def PetriNet.deepTickCover (fuel : Nat) (net : PetriNet) : Option CoverOutcome :=
  match coverLoop fuel net (net.places.map Place.id) with
  | none => none
  | some (.ok n) => some (.completed n)
  | some (.error _) => some .terminated

/-- The interconnection loop at the end of `PetriNet::merge`: add sketches
one by one; a throw leaves the net in its partially extended state. -/
def addSketchList (net : PetriNet) : List TransitionSketch →
    Except PTNError Unit × PetriNet
  | [] => (.ok (), net)
  | sk :: rest =>
    match net.addTransitionAcquired sk with
    | .error e => (.error e, net)
    | .ok net1 => addSketchList net1 rest

/-- Re-creation of the absorbed net's transitions inside `PetriNet::merge`:
`addTransitionAcquired(sketch)` followed by reattaching the saved
`evaluate_condition_`. -/
def addSketchCondList (net : PetriNet) : List (TransitionSketch × Option CondFn) →
    Except PTNError Unit × PetriNet
  | [] => (.ok (), net)
  | (sk, c) :: rest =>
    match net.addTransitionAcquired sk with
    | .error e => (.error e, net)
    | .ok net1 => addSketchCondList (net1.setCond sk.id c) rest

/-- The loop body `place->ingoing_to_.clear(); place->outgoing_to_.clear()`
applied to every place moved by `PetriNet::merge`. -/
def clearAdj (p : Place) : Place := { p with ingoingTo := [], outgoingTo := [] }

/-- Re-expression of a live transition as a sketch (by place ids) together
with its saved `evaluate_condition_`, as built by `PetriNet::merge`. -/
def sketchOf (t : Transition) : TransitionSketch × Option CondFn :=
  ({ id := t.id, ingoing := t.ingoing, outgoing := t.outgoing }, t.cond)

/-- The three up-front validation checks of `PetriNet::merge` (duplicate
place ids, duplicate transition ids between the nets, interconnection ids
colliding with this net's transitions). -/
def mergeDupCheck (net other : PetriNet) (interconnections : List TransitionSketch) : Bool :=
  other.places.any (fun p => (net.findPlaceAcquired p.id).isSome) ||
  other.transitions.any (fun t => (net.findTransitionAcquired t.id).isSome) ||
  interconnections.any (fun sk => (net.findTransitionAcquired sk.id).isSome)

/-- `PetriNet::merge(other, interconnections)`: the three duplicate checks
(throwing before any mutation), then: re-express `other`'s transitions as
sketches with their predicates, clear `other`'s transitions, clear the
adjacency of `other`'s places and move them into this net, re-create the
absorbed transitions, and finally add the interconnection sketches.  A
throw in the two trailing phases leaves the already mutated state behind,
modelled by returning the nets as they are at the throw.  (In C++
`other.places_` retains moved-from null `shared_ptr`s, observationally
empty to `findPlace`; modelled as the empty net.) -/
def PetriNet.merge (net other : PetriNet) (interconnections : List TransitionSketch) :
    Except PTNError Unit × PetriNet × PetriNet :=
  if other.places.any (fun p => (net.findPlaceAcquired p.id).isSome) then
    (.error .duplicateIdentity, net, other)
  else if other.transitions.any (fun t => (net.findTransitionAcquired t.id).isSome) then
    (.error .duplicateIdentity, net, other)
  else if interconnections.any (fun sk => (net.findTransitionAcquired sk.id).isSome) then
    (.error .duplicateIdentity, net, other)
  else
    match addSketchCondList
        { net with places := net.places ++ other.places.map clearAdj }
        (other.transitions.map sketchOf) with
    | (.error e, net2) => (.error e, net2, { places := [], transitions := [] })
    | (.ok _, net2) =>
      ((addSketchList net2 interconnections).1, (addSketchList net2 interconnections).2,
        { places := [], transitions := [] })

/-- `findPlace(id)->onChange(fn)`: replace the single listener slot. -/
def PetriNet.setOnChange (net : PetriNet) (pid : String) (l : Option Nat) : PetriNet :=
  net.updPlace pid (fun p => { p with onChange := l })

/-! ### Concrete fixtures

The nets below reproduce the repository's unit-test fixtures
(`test/SimplePTN/transition.cpp`, `test/SimplePTN/petri_net.cpp`), built
through the construction API. -/

/-- The empty net a default-constructed `PetriNet` holds. -/
def emptyNet : PetriNet := { places := [], transitions := [] }

/-- Fallback values for extracting from `Except`/`Option` on paths that are
proved (by `rfl` evaluation) not to occur. -/
def dummyT : Transition := { id := "", ingoing := [], outgoing := [], cond := none }

def dummyP : Place :=
  { id := "", tokens := 0, onChange := none, ingoingTo := [], outgoingTo := [] }

def ofBuild (b : Except PTNError PetriNet) : PetriNet := b.toOption.getD emptyNet

/-- Fixture of `TEST_CASE "sptn::Transition fire()"`: standalone places
A=3, B=4, C=5, D=0, E=0 (the unit tests create places without a net). -/
def c7Net : PetriNet :=
  { places :=
      [ { id := "A", tokens := 3, onChange := none, ingoingTo := [], outgoingTo := [] },
        { id := "B", tokens := 4, onChange := none, ingoingTo := [], outgoingTo := [] },
        { id := "C", tokens := 5, onChange := none, ingoingTo := [], outgoingTo := [] },
        { id := "D", tokens := 0, onChange := none, ingoingTo := [], outgoingTo := [] },
        { id := "E", tokens := 0, onChange := none, ingoingTo := [], outgoingTo := [] } ],
    transitions := [] }

/-- Transition T consuming {A:2, B:3, C:4}, producing {D:1, E:1}. -/
def c7T : Transition :=
  { id := "T", ingoing := [("A", 2), ("B", 3), ("C", 4)],
    outgoing := [("D", 1), ("E", 1)], cond := none }

/-- Net with a ready transition R (P=1 ⊢ P→Q) that has NO auto-fire
predicate installed. -/
def c1Build : Except PTNError PetriNet := do
  let n ← emptyNet.addPlaceAcquired "P" 1
  let n ← n.addPlaceAcquired "Q" 0
  let n ← n.addTransitionAcquired { id := "R", ingoing := [("P", 1)], outgoing := [("Q", 1)] }
  return n

def c1Net : PetriNet := ofBuild c1Build

/-- Same net with a predicate installed that evaluates to false. -/
def c1NetNever : PetriNet := c1Net.setCond "R" (some .never)

def c1T : Transition := (c1Net.findTransitionAcquired "R").getD dummyT

/-- Standalone place P=1 and a transition whose input list mentions P in
two weight pairs of weight 1 each (additive demand 2 > supply 1). -/
def c2Net : PetriNet :=
  { places := [ { id := "P", tokens := 1, onChange := none, ingoingTo := [], outgoingTo := [] } ],
    transitions := [] }

def c2T : Transition :=
  { id := "X", ingoing := [("P", 1), ("P", 1)], outgoing := [], cond := none }

/-- Standalone place P=1 with a listener installed, and a transition with P
both as input (weight 1) and as output (weight 2). -/
def c3Net : PetriNet :=
  { places :=
      [ { id := "P", tokens := 1, onChange := some 0, ingoingTo := [], outgoingTo := [] } ],
    transitions := [] }

def c3T : Transition :=
  { id := "X", ingoing := [("P", 1)], outgoing := [("P", 2)], cond := none }

/-- Fixture of the merge test "invalid interconnections": net1 = {A, T1},
net2 = {B, T2}, one interconnection sketch referencing unknown places. -/
def c4Build1 : Except PTNError PetriNet := do
  let n ← emptyNet.addPlaceAcquired "A" 1
  let n ← n.addTransitionAcquired { id := "T1", ingoing := [], outgoing := [] }
  return n

def c4Net1 : PetriNet := ofBuild c4Build1

def c4Build2 : Except PTNError PetriNet := do
  let n ← emptyNet.addPlaceAcquired "B" 1
  let n ← n.addTransitionAcquired { id := "T2", ingoing := [], outgoing := [] }
  return n

def c4Net2 : PetriNet := ofBuild c4Build2

def c4Ics : List TransitionSketch := [{ id := "T3", ingoing := [("D", 1)], outgoing := [("C", 2)] }]

/-- Fixture of `TEST_CASE "sptn::PetriNet deepTick() cycle detection"`,
first `GIVEN`: auto-firing cycle A→B→C→D→A, single token on A. -/
def cycleBuild : Except PTNError PetriNet := do
  let n ← emptyNet.addPlaceAcquired "A" 1
  let n ← n.addPlaceAcquired "B" 0
  let n ← n.addPlaceAcquired "C" 0
  let n ← n.addPlaceAcquired "D" 0
  let n ← n.addPlaceAcquired "E" 0
  let n ← n.addTransitionAcquired { id := "AB", ingoing := [("A", 1)], outgoing := [("B", 1)] }
  let n := n.setCond "AB" (some .always)
  let n ← n.addTransitionAcquired { id := "BC", ingoing := [("B", 1)], outgoing := [("C", 1)] }
  let n := n.setCond "BC" (some .always)
  let n ← n.addTransitionAcquired { id := "CD", ingoing := [("C", 1)], outgoing := [("D", 1)] }
  let n := n.setCond "CD" (some .always)
  let n ← n.addTransitionAcquired
    { id := "DEA", ingoing := [("D", 1)], outgoing := [("E", 1), ("A", 1)] }
  let n := n.setCond "DEA" (some .always)
  return n

def cycleNet : PetriNet := ofBuild cycleBuild

/-- The same cycle with every place on the cycle marked (A=B=C=D=1). -/
def cycleAllBuild : Except PTNError PetriNet := do
  let n ← emptyNet.addPlaceAcquired "A" 1
  let n ← n.addPlaceAcquired "B" 1
  let n ← n.addPlaceAcquired "C" 1
  let n ← n.addPlaceAcquired "D" 1
  let n ← n.addPlaceAcquired "E" 0
  let n ← n.addTransitionAcquired { id := "AB", ingoing := [("A", 1)], outgoing := [("B", 1)] }
  let n := n.setCond "AB" (some .always)
  let n ← n.addTransitionAcquired { id := "BC", ingoing := [("B", 1)], outgoing := [("C", 1)] }
  let n := n.setCond "BC" (some .always)
  let n ← n.addTransitionAcquired { id := "CD", ingoing := [("C", 1)], outgoing := [("D", 1)] }
  let n := n.setCond "CD" (some .always)
  let n ← n.addTransitionAcquired
    { id := "DEA", ingoing := [("D", 1)], outgoing := [("E", 1), ("A", 1)] }
  let n := n.setCond "DEA" (some .always)
  return n

def cycleAllNet : PetriNet := ofBuild cycleAllBuild

/-- Fixture of the second `GIVEN`: acyclic diamond A→{B,C}→D plus A→E,
auto-firing, one token on A. -/
def diamondBuild : Except PTNError PetriNet := do
  let n ← emptyNet.addPlaceAcquired "A" 1
  let n ← n.addPlaceAcquired "B" 0
  let n ← n.addPlaceAcquired "C" 0
  let n ← n.addPlaceAcquired "D" 0
  let n ← n.addPlaceAcquired "E" 0
  let n ← n.addTransitionAcquired
    { id := "ABC", ingoing := [("A", 1)], outgoing := [("B", 1), ("C", 1)] }
  let n := n.setCond "ABC" (some .always)
  let n ← n.addTransitionAcquired { id := "BD", ingoing := [("B", 1)], outgoing := [("D", 1)] }
  let n := n.setCond "BD" (some .always)
  let n ← n.addTransitionAcquired { id := "CD", ingoing := [("C", 1)], outgoing := [("D", 1)] }
  let n := n.setCond "CD" (some .always)
  let n ← n.addTransitionAcquired { id := "AE", ingoing := [("A", 1)], outgoing := [("E", 1)] }
  let n := n.setCond "AE" (some .always)
  return n

def diamondNet : PetriNet := ofBuild diamondBuild

/-- Net used as witness for the merge-preservation theorem: a one-place
net {A} merged with a net holding place B (7 tokens, listener installed). -/
def c8Build1 : Except PTNError PetriNet := do
  let n ← emptyNet.addPlaceAcquired "A" 1
  return n

def c8Net1 : PetriNet := ofBuild c8Build1

def c8Build2 : Except PTNError PetriNet := do
  let n ← emptyNet.addPlaceAcquired "B" 7
  let n ← n.addTransitionAcquired { id := "TB", ingoing := [("B", 1)], outgoing := [("B", 1)] }
  let n := n.setCond "TB" (some .always)
  return (n.setOnChange "B" (some 3))

def c8Net2 : PetriNet := ofBuild c8Build2

/-- Witness transition for C9: empty input list, outputs {D:1, E:2}. -/
def c9T : Transition :=
  { id := "S", ingoing := [], outgoing := [("D", 1), ("E", 2)], cond := none }

/-- Witness transition for C10: not ready on `c7Net` (demands A≥5). -/
def c10T : Transition :=
  { id := "U", ingoing := [("A", 5)], outgoing := [("D", 1)], cond := none }

/-- Fixture of `TEST_CASE "sptn::Transition triggers onChange of places"`:
A=3, B=4, C=5, D=0, E=0, all with a listener installed. -/
def c3WNet : PetriNet :=
  { places :=
      [ { id := "A", tokens := 3, onChange := some 1, ingoingTo := [], outgoingTo := [] },
        { id := "B", tokens := 4, onChange := some 1, ingoingTo := [], outgoingTo := [] },
        { id := "C", tokens := 5, onChange := some 1, ingoingTo := [], outgoingTo := [] },
        { id := "D", tokens := 0, onChange := some 1, ingoingTo := [], outgoingTo := [] },
        { id := "E", tokens := 0, onChange := some 1, ingoingTo := [], outgoingTo := [] } ],
    transitions := [] }

/-- Transition of that test: consumes {A:2, B:2, C:2}, produces {D:1, E:2}. -/
def c3WT : Transition :=
  { id := "T", ingoing := [("A", 2), ("B", 2), ("C", 2)],
    outgoing := [("D", 1), ("E", 2)], cond := none }

/-- Nets of the merge test "duplicate PlaceIDs": both contain a place A. -/
def c4WNet1 : PetriNet := ofBuild (emptyNet.addPlaceAcquired "A" 1)

def c4WNet2 : PetriNet := ofBuild (emptyNet.addPlaceAcquired "A" 1)

/-! ### Observers -/

/-- Observer of one step of fire's input phase: same place mutation as
`fireStep subU32`, plus a flag that records whether the subtraction was
applied with fewer tokens than the weight (a `uint32_t` underflow). -/
def underflowStep (acc : PetriNet × Bool) (pr : String × Nat) : PetriNet × Bool :=
  (acc.1.updPlace pr.1 (fun p => { p with tokens := subU32 p.tokens pr.2 }),
   acc.2 || decide (acc.1.tokensOf pr.1 < pr.2))

/-- True iff, replaying fire's input loop, some subtraction is applied to a
place holding fewer tokens than the pair's weight at that moment. -/
def fireInputUnderflow (net : PetriNet) (t : Transition) : Bool :=
  (t.ingoing.foldl underflowStep (net, false)).2

/-- Total weight that the pairs of `prs` assign to the place `pid`. -/
def weightSumFor (prs : List (String × Nat)) (pid : String) : Nat :=
  ((prs.filter (fun pr => pr.1 == pid)).map Prod.snd).sum

/-- The observable (token count, listener slot) of the place with id `pid`. -/
def obsTok (net : PetriNet) (pid : String) : Option (Nat × Option Nat) :=
  (net.findPlaceAcquired pid).map (fun p => (p.tokens, p.onChange))

/-- Does a `deepTick` result report normal completion? -/
def isOkR : Option (Except PTNError PetriNet) → Bool
  | some (.ok _) => true
  | _ => false

/-- Does a `deepTick` result report the `CycleDetected` error? -/
def isCycleErrR : Option (Except PTNError PetriNet) → Bool
  | some (.error .cycleDetected) => true
  | _ => false

/-! ### Basic lemmas about place lookup and update -/

theorem find?_updFirstPlace (pid q : String) (f : Place → Place)
    (hid : ∀ p, (f p).id = p.id) :
    ∀ places : List Place,
      (updFirstPlace pid f places).find? (fun p => p.id == q) =
        if q = pid then (places.find? (fun p => p.id == q)).map f
        else places.find? (fun p => p.id == q) := by
  intro places
  induction places with
  | nil => simp [updFirstPlace]
  | cons p ps ih =>
    by_cases hp : p.id = pid
    · by_cases hq : q = pid
      · subst hq
        simp [updFirstPlace, hp, List.find?, hid]
      · have hpq : ¬ p.id = q := fun h => hq (by rw [← h, hp])
        have h1 : (pid == q) = false := beq_eq_false_iff_ne.mpr (fun h => hq h.symm)
        simp [updFirstPlace, hp, List.find?, hid, hq, hpq, h1]
    · by_cases hpq : p.id = q
      · have hq : ¬ q = pid := fun h => hp (by rw [hpq, h])
        simp [updFirstPlace, hp, List.find?, hpq, hq]
      · have h2 : (p.id == q) = false := beq_eq_false_iff_ne.mpr hpq
        simp [updFirstPlace, hp, List.find?, hpq, h2, ih]

theorem findPlaceAcquired_updPlace (net : PetriNet) (pid q : String) (f : Place → Place)
    (hid : ∀ p, (f p).id = p.id) :
    (net.updPlace pid f).findPlaceAcquired q =
      if q = pid then (net.findPlaceAcquired q).map f else net.findPlaceAcquired q :=
  find?_updFirstPlace pid q f hid net.places

theorem tokensOf_updPlace_other (net : PetriNet) {pid q : String} (f : Place → Place)
    (hid : ∀ p, (f p).id = p.id) (h : q ≠ pid) :
    (net.updPlace pid f).tokensOf q = net.tokensOf q := by
  unfold PetriNet.tokensOf
  rw [findPlaceAcquired_updPlace net pid q f hid, if_neg h]

theorem isSome_findPlaceAcquired_updPlace (net : PetriNet) (pid q : String)
    (f : Place → Place) (hid : ∀ p, (f p).id = p.id) :
    ((net.updPlace pid f).findPlaceAcquired q).isSome =
      (net.findPlaceAcquired q).isSome := by
  rw [findPlaceAcquired_updPlace net pid q f hid]
  split <;> simp

theorem tokensOf_updPlace_op (net : PetriNet) (pid : String) (op : Nat → Nat → Nat)
    (w : Nat) (h : (net.findPlaceAcquired pid).isSome) :
    (net.updPlace pid (fun p => { p with tokens := op p.tokens w })).tokensOf pid =
      op (net.tokensOf pid) w := by
  obtain ⟨p, hp⟩ := Option.isSome_iff_exists.mp h
  unfold PetriNet.tokensOf
  rw [findPlaceAcquired_updPlace net pid pid (fun p => { p with tokens := op p.tokens w })
    (fun _ => rfl), if_pos rfl, hp]
  rfl

/-! ### Lemmas about fire's mutation loop -/

theorem fireStep_foldl_tokensOf_other (op : Nat → Nat → Nat) :
    ∀ (prs : List (String × Nat)) (n : PetriNet) (acc : List (String × Nat)) (q : String),
      q ∉ prs.map Prod.fst →
      ((prs.foldl (fireStep op) (n, acc)).1).tokensOf q = n.tokensOf q := by
  intro prs
  induction prs with
  | nil => intro n acc q _; rfl
  | cons pr rest ih =>
    intro n acc q hq
    simp only [List.map_cons, List.mem_cons, not_or] at hq
    rw [List.foldl_cons,
      show fireStep op (n, acc) pr =
        (n.updPlace pr.1 (fun p => { p with tokens := op p.tokens pr.2 }),
          acc ++ [(pr.1, n.tokensOf pr.1)]) from rfl,
      ih _ _ _ hq.2]
    exact tokensOf_updPlace_other n (fun p => { p with tokens := op p.tokens pr.2 })
      (fun _ => rfl) hq.1

theorem fireStep_foldl_isSome (op : Nat → Nat → Nat) :
    ∀ (prs : List (String × Nat)) (n : PetriNet) (acc : List (String × Nat)) (q : String),
      (((prs.foldl (fireStep op) (n, acc)).1).findPlaceAcquired q).isSome =
        (n.findPlaceAcquired q).isSome := by
  intro prs
  induction prs with
  | nil => intro n acc q; rfl
  | cons pr rest ih =>
    intro n acc q
    rw [List.foldl_cons,
      show fireStep op (n, acc) pr =
        (n.updPlace pr.1 (fun p => { p with tokens := op p.tokens pr.2 }),
          acc ++ [(pr.1, n.tokensOf pr.1)]) from rfl,
      ih]
    exact isSome_findPlaceAcquired_updPlace n pr.1 q
      (fun p => { p with tokens := op p.tokens pr.2 }) (fun _ => rfl)

theorem fireStep_foldl_notes (op : Nat → Nat → Nat) :
    ∀ (prs : List (String × Nat)) (n : PetriNet) (acc : List (String × Nat)),
      (prs.map Prod.fst).Nodup →
      (prs.foldl (fireStep op) (n, acc)).2 =
        acc ++ prs.map (fun pr => (pr.1, n.tokensOf pr.1)) := by
  intro prs
  induction prs with
  | nil => intro n acc _; simp
  | cons pr rest ih =>
    intro n acc hnd
    simp only [List.map_cons, List.nodup_cons] at hnd
    rw [List.foldl_cons,
      show fireStep op (n, acc) pr =
        (n.updPlace pr.1 (fun p => { p with tokens := op p.tokens pr.2 }),
          acc ++ [(pr.1, n.tokensOf pr.1)]) from rfl,
      ih _ _ hnd.2]
    rw [List.map_cons, List.append_assoc]
    congr 1
    rw [List.singleton_append]
    congr 1
    apply List.map_congr_left
    intro pr' hpr'
    have hne : pr'.1 ≠ pr.1 := by
      intro h
      exact hnd.1 (h ▸ List.mem_map_of_mem Prod.fst hpr')
    rw [tokensOf_updPlace_other n (fun p => { p with tokens := op p.tokens pr.2 })
      (fun _ => rfl) hne]

theorem fireStep_foldl_addU32_sum :
    ∀ (prs : List (String × Nat)) (n : PetriNet) (acc : List (String × Nat)) (pid : String),
      (n.findPlaceAcquired pid).isSome → n.tokensOf pid < U32M →
      ((prs.foldl (fireStep addU32) (n, acc)).1).tokensOf pid =
        (n.tokensOf pid + weightSumFor prs pid) % U32M := by
  intro prs
  induction prs with
  | nil =>
    intro n acc pid _ hlt
    simp [weightSumFor, Nat.mod_eq_of_lt hlt]
  | cons pr rest ih =>
    intro n acc pid hsome hlt
    rw [List.foldl_cons]
    by_cases hq : pr.1 = pid
    · subst hq
      have h1 : (fireStep addU32 (n, acc) pr).1.tokensOf pr.1 = addU32 (n.tokensOf pr.1) pr.2 :=
        tokensOf_updPlace_op n pr.1 addU32 pr.2 hsome
      have hsome1 : ((fireStep addU32 (n, acc) pr).1.findPlaceAcquired pr.1).isSome := by
        rw [show (fireStep addU32 (n, acc) pr).1 =
            n.updPlace pr.1 (fun p => { p with tokens := addU32 p.tokens pr.2 }) from rfl,
          isSome_findPlaceAcquired_updPlace n pr.1 pr.1
            (fun p => { p with tokens := addU32 p.tokens pr.2 }) (fun _ => rfl)]
        exact hsome
      have hlt1 : (fireStep addU32 (n, acc) pr).1.tokensOf pr.1 < U32M := by
        rw [h1]
        exact Nat.mod_lt _ (by norm_num [U32M])
      rw [ih _ _ _ hsome1 hlt1, h1]
      unfold addU32 weightSumFor
      rw [List.filter_cons_of_pos (by simp), List.map_cons, List.sum_cons, Nat.mod_add_mod,
        Nat.add_assoc]
    · have hne : pid ≠ pr.1 := fun h => hq h.symm
      have h1 : (fireStep addU32 (n, acc) pr).1.tokensOf pid = n.tokensOf pid :=
        tokensOf_updPlace_other n (fun p => { p with tokens := addU32 p.tokens pr.2 })
          (fun _ => rfl) hne
      have hsome1 : ((fireStep addU32 (n, acc) pr).1.findPlaceAcquired pid).isSome := by
        rw [show (fireStep addU32 (n, acc) pr).1 =
            n.updPlace pr.1 (fun p => { p with tokens := addU32 p.tokens pr.2 }) from rfl,
          isSome_findPlaceAcquired_updPlace n pr.1 pid
            (fun p => { p with tokens := addU32 p.tokens pr.2 }) (fun _ => rfl)]
        exact hsome
      rw [ih _ _ _ hsome1 (h1 ▸ hlt), h1]
      unfold weightSumFor
      rw [List.filter_cons_of_neg (by simp [hq])]

theorem underflowStep_foldl_false :
    ∀ (prs : List (String × Nat)) (n : PetriNet),
      (prs.map Prod.fst).Nodup →
      (∀ pr ∈ prs, pr.2 ≤ n.tokensOf pr.1) →
      (prs.foldl underflowStep (n, false)).2 = false := by
  intro prs
  induction prs with
  | nil => intro n _ _; rfl
  | cons pr rest ih =>
    intro n hnd hsuf
    simp only [List.map_cons, List.nodup_cons] at hnd
    rw [List.foldl_cons]
    have hflag : underflowStep (n, false) pr =
        ((underflowStep (n, false) pr).1, false) := by
      unfold underflowStep
      simp [Nat.not_lt.mpr (hsuf pr (by simp))]
    rw [hflag]
    apply ih _ hnd.2
    intro pr' hpr'
    have hne : pr'.1 ≠ pr.1 := by
      intro h
      exact hnd.1 (h ▸ List.mem_map_of_mem Prod.fst hpr')
    rw [show (underflowStep (n, false) pr).1 =
        n.updPlace pr.1 (fun p => { p with tokens := subU32 p.tokens pr.2 }) from rfl,
      tokensOf_updPlace_other n (fun p => { p with tokens := subU32 p.tokens pr.2 })
        (fun _ => rfl) hne]
    exact hsuf pr' (List.mem_cons_of_mem _ hpr')

/-! ### Helper lemmas about fire -/

theorem fire_of_not_ready (net : PetriNet) (t : Transition)
    (h : t.readyAcquired net = false) : Transition.fire net t = (false, net, []) := by
  unfold Transition.fire
  simp [h]

theorem ready_of_fire (net : PetriNet) (t : Transition)
    (h : (Transition.fire net t).1 = true) : t.readyAcquired net = true := by
  cases hr : t.readyAcquired net with
  | true => rfl
  | false =>
    rw [fire_of_not_ready net t hr] at h
    exact absurd h (by simp)

theorem fire_eq_of_ready (net : PetriNet) (t : Transition)
    (h : t.readyAcquired net = true) :
    Transition.fire net t =
      (true,
        (t.outgoing.foldl (fireStep addU32) (t.ingoing.foldl (fireStep subU32) (net, []))).1,
        (t.outgoing.foldl (fireStep addU32) (t.ingoing.foldl (fireStep subU32) (net, []))).2) := by
  unfold Transition.fire
  simp [h]

theorem ready_le (net : PetriNet) (t : Transition) (h : t.readyAcquired net = true) :
    ∀ pr ∈ t.ingoing, pr.2 ≤ net.tokensOf pr.1 := by
  intro pr hpr
  unfold Transition.readyAcquired at h
  rw [List.all_eq_true] at h
  simpa using h pr hpr

/-! ### Observable (tokens, listener) preservation through merge's phases -/

theorem obsTok_updPlace (net : PetriNet) (pid q : String) (f : Place → Place)
    (hid : ∀ p, (f p).id = p.id) (ht : ∀ p, (f p).tokens = p.tokens)
    (ho : ∀ p, (f p).onChange = p.onChange) :
    obsTok (net.updPlace pid f) q = obsTok net q := by
  unfold obsTok
  rw [findPlaceAcquired_updPlace net pid q f hid]
  split
  · cases net.findPlaceAcquired q with
    | none => rfl
    | some p => simp [ht, ho]
  · rfl

theorem obsTok_foldl_updPlace (g : Place → Place)
    (hid : ∀ p, (g p).id = p.id) (ht : ∀ p, (g p).tokens = p.tokens)
    (ho : ∀ p, (g p).onChange = p.onChange) :
    ∀ (prs : List (String × Nat)) (n : PetriNet) (q : String),
      obsTok (prs.foldl (fun n pr => PetriNet.updPlace n pr.1 g) n) q = obsTok n q := by
  intro prs
  induction prs with
  | nil => intro n q; rfl
  | cons pr rest ih =>
    intro n q
    rw [List.foldl_cons, ih]
    exact obsTok_updPlace n pr.1 q g hid ht ho

theorem obsTok_transitions_irrelevant (net : PetriNet) (ts : List Transition) (q : String) :
    obsTok { net with transitions := ts } q = obsTok net q := rfl

theorem obsTok_setCond (net : PetriNet) (tid : String) (c : Option CondFn) (q : String) :
    obsTok (net.setCond tid c) q = obsTok net q := rfl

theorem obsTok_addTransitionAcquired (net : PetriNet) (sk : TransitionSketch)
    (net3 : PetriNet) (h : net.addTransitionAcquired sk = .ok net3) (q : String) :
    obsTok net3 q = obsTok net q := by
  unfold PetriNet.addTransitionAcquired at h
  by_cases h1 : (net.findTransitionAcquired sk.id).isSome = true
  · simp [h1] at h
  · rw [if_neg h1] at h
    by_cases h2 : sk.ingoing.any (fun pr => (net.findPlaceAcquired pr.1).isNone) = true
    · simp [h2] at h
    · rw [if_neg h2] at h
      by_cases h3 : sk.outgoing.any (fun pr => (net.findPlaceAcquired pr.1).isNone) = true
      · simp [h3] at h
      · rw [if_neg h3] at h
        injection h with hnet3
        rw [← hnet3]
        rw [obsTok_foldl_updPlace (fun p => { p with outgoingTo := p.outgoingTo ++ [sk.id] })
          (fun _ => rfl) (fun _ => rfl) (fun _ => rfl),
          obsTok_foldl_updPlace (fun p => { p with ingoingTo := p.ingoingTo ++ [sk.id] })
          (fun _ => rfl) (fun _ => rfl) (fun _ => rfl)]
        rfl

theorem obsTok_addSketchCondList :
    ∀ (l : List (TransitionSketch × Option CondFn)) (n : PetriNet) (q : String),
      obsTok (addSketchCondList n l).2 q = obsTok n q := by
  intro l
  induction l with
  | nil => intro n q; rfl
  | cons skc rest ih =>
    intro n q
    obtain ⟨sk, c⟩ := skc
    unfold addSketchCondList
    cases hadd : n.addTransitionAcquired sk with
    | error e => rfl
    | ok n1 =>
      rw [ih, obsTok_setCond]
      exact obsTok_addTransitionAcquired n sk n1 hadd q

theorem obsTok_addSketchList :
    ∀ (l : List TransitionSketch) (n : PetriNet) (q : String),
      obsTok (addSketchList n l).2 q = obsTok n q := by
  intro l
  induction l with
  | nil => intro n q; rfl
  | cons sk rest ih =>
    intro n q
    unfold addSketchList
    cases hadd : n.addTransitionAcquired sk with
    | error e => rfl
    | ok n1 =>
      rw [ih]
      exact obsTok_addTransitionAcquired n sk n1 hadd q

theorem find?_append_of_none {α : Type} {p : α → Bool} :
    ∀ (l1 l2 : List α), l1.find? p = none → (l1 ++ l2).find? p = l2.find? p := by
  intro l1
  induction l1 with
  | nil => intro l2 _; rfl
  | cons a l ih =>
    intro l2 h
    rw [List.find?_cons] at h
    cases hpa : p a with
    | true => rw [hpa] at h; exact absurd h (by simp)
    | false =>
      rw [List.cons_append, List.find?_cons, hpa]
      rw [hpa] at h
      exact ih l2 h

theorem find?_map_of_nodup (g : Place → Place) (hid : ∀ p, (g p).id = p.id) :
    ∀ (ps : List Place) (p : Place), (ps.map Place.id).Nodup → p ∈ ps →
      (ps.map g).find? (fun x => x.id == p.id) = some (g p) := by
  intro ps
  induction ps with
  | nil => intro p _ hp; exact absurd hp (List.not_mem_nil p)
  | cons a l ih =>
    intro p hnd hp
    simp only [List.map_cons, List.nodup_cons] at hnd
    rw [List.map_cons, List.find?_cons]
    rcases List.mem_cons.mp hp with hpa | hpl
    · subst hpa
      rw [show ((g p).id == p.id) = true from beq_iff_eq.mpr (hid p)]
    · cases haq : ((g a).id == p.id) with
      | true =>
        exfalso
        have : a.id = p.id := by rw [← hid a]; exact beq_iff_eq.mp haq
        exact hnd.1 (this ▸ List.mem_map_of_mem Place.id hpl)
      | false => exact ih p hnd.2 hpl

theorem merge_obsTok_ok (net other : PetriNet) (ics : List TransitionSketch)
    (hok : (PetriNet.merge net other ics).1 = .ok ()) (q : String) :
    obsTok (PetriNet.merge net other ics).2.1 q =
      obsTok { net with places := net.places ++ other.places.map clearAdj } q := by
  unfold PetriNet.merge at hok ⊢
  by_cases h1 : other.places.any (fun p => (net.findPlaceAcquired p.id).isSome) = true
  · rw [if_pos h1] at hok; exact absurd hok (by simp)
  · rw [if_neg h1] at hok ⊢
    by_cases h2 :
        other.transitions.any (fun t => (net.findTransitionAcquired t.id).isSome) = true
    · rw [if_pos h2] at hok; exact absurd hok (by simp)
    · rw [if_neg h2] at hok ⊢
      by_cases h3 : ics.any (fun sk => (net.findTransitionAcquired sk.id).isSome) = true
      · rw [if_pos h3] at hok; exact absurd hok (by simp)
      · rw [if_neg h3] at hok ⊢
        rcases hsc : addSketchCondList
            { net with places := net.places ++ other.places.map clearAdj }
            (other.transitions.map sketchOf) with ⟨r, net2⟩
        rw [hsc] at hok
        cases r with
        | error e => exact Except.noConfusion hok
        | ok u =>
          show obsTok (addSketchList net2 ics).2 q = _
          rw [obsTok_addSketchList]
          have hnet2 : net2 = (addSketchCondList
              { net with places := net.places ++ other.places.map clearAdj }
              (other.transitions.map sketchOf)).2 := by
            rw [hsc]
          rw [hnet2, obsTok_addSketchCondList]

theorem mergeOk_findPlace_none (net other : PetriNet) (ics : List TransitionSketch)
    (hok : (PetriNet.merge net other ics).1 = .ok ()) :
    ∀ p ∈ other.places, net.findPlaceAcquired p.id = none := by
  intro p hp
  by_cases h1 : other.places.any (fun p => (net.findPlaceAcquired p.id).isSome) = true
  · unfold PetriNet.merge at hok
    rw [if_pos h1] at hok
    exact absurd hok (by simp)
  · rw [Bool.not_eq_true, List.any_eq_false] at h1
    have hfalse := h1 p hp
    rw [Bool.not_eq_true] at hfalse
    cases hfp : net.findPlaceAcquired p.id with
    | none => rfl
    | some x => rw [hfp] at hfalse; exact absurd hfalse (by simp)

/-! ## Claim theorems -/

/-- Claim C1, counterexample: on a net holding a transition R that is ready
to fire (fire() would succeed, draining P from 1 to 0 tokens), the internal
cascading step `Transition::deepTick(seen)` leaves the net completely
untouched both when no auto-fire predicate is installed and when the
installed predicate evaluates to false — it does not call `fire()`
unconditionally, and it does not fire when no predicate is installed. -/
theorem c1_deepTick_counterexample :
    transitionDeepTick 10 c1Net "R" [] = some (.ok c1Net) ∧
    transitionDeepTick 10 c1NetNever "R" [] = some (.ok c1NetNever) ∧
    c1Net.tokensOf "P" = 1 ∧
    (Transition.fire c1Net c1T).1 = true ∧
    (Transition.fire c1Net c1T).2.1.tokensOf "P" = 0 :=
  ⟨rfl, rfl, rfl, rfl, rfl⟩

/-- Claim C1 (amended): `Transition::deepTick(seen)` calls `tick()` — which
fires only when an auto-fire predicate is installed and evaluates to true —
and cascades `deepTick` to every output Place iff that `tick()` fired.
With no predicate installed, or with one evaluating to false, the step
returns with the net unchanged and cascades nothing; with a predicate
evaluating to true it performs `fire()` and cascades exactly when the fire
succeeded. -/
theorem c1_deepTick_via_tick (fuel : Nat) (net : PetriNet) (tid : String)
    (seen : List String) (t : Transition)
    (h : net.findTransitionAcquired tid = some t) :
    (t.cond = none → transitionDeepTick (fuel + 1) net tid seen = some (.ok net)) ∧
    (t.cond = some .never → transitionDeepTick (fuel + 1) net tid seen = some (.ok net)) ∧
    (t.cond = some .always →
      transitionDeepTick (fuel + 1) net tid seen =
        if (Transition.fire net t).1 then
          cascadePlaces fuel (Transition.fire net t).2.1 (t.outgoing.map Prod.fst) seen
        else some (.ok net)) := by
  refine ⟨?_, ?_, ?_⟩ <;> intro hc
  · simp [transitionDeepTick, h, Transition.tick, hc]
  · simp [transitionDeepTick, h, Transition.tick, hc, CondFn.eval]
  · simp only [transitionDeepTick, h, Transition.tick, hc, CondFn.eval, if_true]
    cases hf : (Transition.fire net t).1 with
    | true => simp [hf]
    | false =>
      have hr : t.readyAcquired net = false := by
        cases hr : t.readyAcquired net with
        | false => rfl
        | true =>
          rw [fire_eq_of_ready net t hr] at hf
          exact absurd hf (by simp)
      rw [fire_of_not_ready net t hr]

/-- Witness for the amended C1 theorem at the concrete net `c1Net`. -/
theorem c1_deepTick_via_tick_w :
    transitionDeepTick (9 + 1) c1Net "R" [] = some (.ok c1Net) :=
  (c1_deepTick_via_tick 9 c1Net "R" [] c1T rfl).1 rfl

/-- Claim C2, counterexample: place P holds 1 token and transition X lists
P twice among its inputs with weight 1 each (additive demand 2).  fire()
nevertheless succeeds — the sufficiency check is per pair, not additive —
and the second subtraction underflows the `uint32_t` count, leaving P with
4294967295 tokens. -/
theorem c2_underflow_counterexample :
    (Transition.fire c2Net c2T).1 = true ∧
    (Transition.fire c2Net c2T).2.1.tokensOf "P" = 4294967295 ∧
    fireInputUnderflow c2Net c2T = true :=
  ⟨rfl, rfl, rfl⟩

/-- Claim C2 (amended): the readiness gate checks every input pair
independently against the pre-fire marking, so whenever each input Place
appears in at most one input pair, a successful fire() never subtracts
more tokens than a place holds (no token count goes below zero / no
`uint32_t` underflow).  With duplicate input Place references the additive
demand is not checked and the count can underflow (see the
counterexample). -/
theorem c2_no_underflow_of_nodup (net : PetriNet) (t : Transition)
    (hnd : (t.ingoing.map Prod.fst).Nodup)
    (hf : (Transition.fire net t).1 = true) :
    fireInputUnderflow net t = false := by
  have hr := ready_of_fire net t hf
  exact underflowStep_foldl_false t.ingoing net hnd (ready_le net t hr)

/-- Witness for the amended C2 theorem at the fire() test fixture. -/
theorem c2_no_underflow_of_nodup_w : fireInputUnderflow c7Net c7T = false :=
  c2_no_underflow_of_nodup c7Net c7T (by decide) rfl

/-- Claim C3, counterexample: place P (1 token, listener installed) is both
the input (weight 1) and the output (weight 2) of transition X.  A
successful fire() records one notification per weight pair, so P's
listener is invoked twice — once with previous value 1 (before the input
subtraction) and once with previous value 0 (after the subtraction, before
the output addition) — not exactly once as claimed. -/
theorem c3_notify_counterexample :
    (Transition.fire c3Net c3T).1 = true ∧
    (Transition.fire c3Net c3T).2.2 = [("P", 1), ("P", 0)] ∧
    (Transition.fire c3Net c3T).2.1.notifyRun (Transition.fire c3Net c3T).2.2 =
      [("P", 1), ("P", 0)] ∧
    ((Transition.fire c3Net c3T).2.1.notifyRun (Transition.fire c3Net c3T).2.2).length = 2 :=
  ⟨rfl, rfl, rfl, rfl⟩

/-- Claim C3 (amended): a successful fire() records exactly one
notification per weight pair, in input-then-output order; a Place
appearing in k pairs is notified k times, each with the previous value
read immediately before that pair's own mutation.  When all weight pairs
reference distinct Places (the claim's situation restricted to transitions
without duplicated endpoints) every touched Place is notified exactly once
and the recorded previous value is its token count immediately before the
fire. -/
theorem c3_notify_once_of_nodup (net : PetriNet) (t : Transition)
    (hnd : ((t.ingoing ++ t.outgoing).map Prod.fst).Nodup)
    (hf : (Transition.fire net t).1 = true) :
    (Transition.fire net t).2.2 =
      (t.ingoing ++ t.outgoing).map (fun pr => (pr.1, net.tokensOf pr.1)) ∧
    (((Transition.fire net t).2.2).map Prod.fst).Nodup := by
  have hr := ready_of_fire net t hf
  rw [List.map_append, List.nodup_append] at hnd
  obtain ⟨hndi, hndo, hdisj⟩ := hnd
  have hnotes1 : (t.ingoing.foldl (fireStep subU32) (net, [])).2 =
      t.ingoing.map (fun pr => (pr.1, net.tokensOf pr.1)) := by
    rw [fireStep_foldl_notes subU32 t.ingoing net [] hndi]
    simp
  have hnotes2 :
      (t.outgoing.foldl (fireStep addU32) (t.ingoing.foldl (fireStep subU32) (net, []))).2 =
        (t.ingoing.foldl (fireStep subU32) (net, [])).2 ++
          t.outgoing.map
            (fun pr => (pr.1, (t.ingoing.foldl (fireStep subU32) (net, [])).1.tokensOf pr.1)) := by
    rw [show t.ingoing.foldl (fireStep subU32) (net, []) =
        ((t.ingoing.foldl (fireStep subU32) (net, [])).1,
          (t.ingoing.foldl (fireStep subU32) (net, [])).2) from rfl]
    rw [fireStep_foldl_notes addU32 t.outgoing _ _ hndo]
  have hout : t.outgoing.map
      (fun pr => (pr.1, (t.ingoing.foldl (fireStep subU32) (net, [])).1.tokensOf pr.1)) =
      t.outgoing.map (fun pr => (pr.1, net.tokensOf pr.1)) := by
    apply List.map_congr_left
    intro pr hpr
    have hnotin : pr.1 ∉ t.ingoing.map Prod.fst := fun hin =>
      hdisj hin (List.mem_map_of_mem Prod.fst hpr)
    rw [fireStep_foldl_tokensOf_other subU32 t.ingoing net [] pr.1 hnotin]
  constructor
  · rw [fire_eq_of_ready net t hr]
    show (t.outgoing.foldl (fireStep addU32) (t.ingoing.foldl (fireStep subU32) (net, []))).2 = _
    rw [hnotes2, hout, hnotes1, List.map_append]
  · rw [fire_eq_of_ready net t hr]
    show ((t.outgoing.foldl (fireStep addU32)
      (t.ingoing.foldl (fireStep subU32) (net, []))).2.map Prod.fst).Nodup
    rw [hnotes2, hout, hnotes1, ← List.map_append, List.map_map]
    have : (Prod.fst ∘ fun pr : String × Nat => (pr.1, net.tokensOf pr.1)) = Prod.fst := rfl
    rw [this, List.map_append]
    exact List.nodup_append.mpr ⟨hndi, hndo, hdisj⟩

/-- Witness for the amended C3 theorem at the onChange test fixture (all
five places distinct, each with a listener). -/
theorem c3_notify_once_of_nodup_w :
    (Transition.fire c3WNet c3WT).2.2 =
      (c3WT.ingoing ++ c3WT.outgoing).map (fun pr => (pr.1, c3WNet.tokensOf pr.1)) ∧
    (((Transition.fire c3WNet c3WT).2.2).map Prod.fst).Nodup :=
  c3_notify_once_of_nodup c3WNet c3WT (by decide) rfl

/-- Claim C4, counterexample: merging net2 = {B, T2} into net1 = {A, T1}
with an interconnection sketch referencing the unknown place ids D and C
throws UnknownIdentity, yet net2 has already been emptied and its place B
has already been absorbed into net1 — merge mutates on this failure. -/
theorem c4_merge_counterexample :
    (PetriNet.merge c4Net1 c4Net2 c4Ics).1 = .error .unknownIdentity ∧
    (PetriNet.merge c4Net1 c4Net2 c4Ics).2.2.places = [] ∧
    c4Net2.places ≠ [] ∧
    (((PetriNet.merge c4Net1 c4Net2 c4Ics).2.1).findPlaceAcquired "B").isSome = true ∧
    (c4Net1.findPlaceAcquired "B").isSome = false := by
  refine ⟨rfl, rfl, ?_, rfl, rfl⟩
  decide

/-- Claim C4 (amended): merge's up-front duplicate-identity validation is
non-mutating — when any of the three duplicate checks (duplicate place
ids, duplicate transition ids, interconnection ids colliding with this
net's transitions) trips, merge fails with DuplicateIdentity and returns
both nets exactly as they were.  An UnknownIdentity failure, by contrast,
can only arise while adding the interconnection sketches, after the
absorbed net has already been emptied and its contents moved (see the
counterexample). -/
theorem c4_merge_dup_check_nonmutating (net other : PetriNet)
    (ics : List TransitionSketch) (h : mergeDupCheck net other ics = true) :
    PetriNet.merge net other ics = (.error .duplicateIdentity, net, other) := by
  unfold mergeDupCheck at h
  unfold PetriNet.merge
  by_cases h1 : other.places.any (fun p => (net.findPlaceAcquired p.id).isSome) = true
  · rw [if_pos h1]
  · rw [if_neg h1]
    rw [Bool.not_eq_true] at h1
    rw [h1, Bool.false_or] at h
    by_cases h2 :
        other.transitions.any (fun t => (net.findTransitionAcquired t.id).isSome) = true
    · rw [if_pos h2]
    · rw [if_neg h2]
      rw [Bool.not_eq_true] at h2
      rw [h2, Bool.false_or] at h
      rw [if_pos h]

/-- Witness for the amended C4 theorem: merging two nets that both own a
place A fails the up-front check and leaves both nets untouched. -/
theorem c4_merge_dup_check_nonmutating_w :
    mergeDupCheck c4WNet1 c4WNet2 [] = true ∧
    PetriNet.merge c4WNet1 c4WNet2 [] = (.error .duplicateIdentity, c4WNet1, c4WNet2) :=
  ⟨rfl, c4_merge_dup_check_nonmutating c4WNet1 c4WNet2 [] rfl⟩

/-- Claim C5 (code bug): on the test suite's auto-firing cycle net,
`deepTick("A")` surfaces CycleDetected to its caller as a catchable error,
and the loop inside `deepTickCover()` raises the same CycleDetected — but
`deepTickCover` is declared `noexcept(true)`, so the escaping exception
hits the noexcept boundary and `std::terminate` is called instead of the
error surfacing to the caller. -/
theorem c5_cover_noexcept_terminates :
    PetriNet.deepTick 100 cycleNet "A" = some (.error .cycleDetected) ∧
    coverLoop 100 cycleNet (cycleNet.places.map Place.id) = some (.error .cycleDetected) ∧
    PetriNet.deepTickCover 100 cycleNet = some .terminated :=
  ⟨rfl, rfl, rfl⟩

/-- Claim C6, counterexample: on the test's cycle net (single token on A),
`deepTick("B")` — B lies on the cycle — returns normally with the net
unchanged, because the transition consuming B is not ready and the cascade
never goes around the cycle; it does not fail with CycleDetected. -/
theorem c6_cycle_counterexample :
    PetriNet.deepTick 100 cycleNet "B" = some (.ok cycleNet) ∧
    isCycleErrR (PetriNet.deepTick 100 cycleNet "B") = false :=
  ⟨rfl, rfl⟩

/-- Claim C6 (amended): on the test's auto-firing cycle net with the
marking of the test (one token on A), deepTick from A fails with
CycleDetected; when every place on the cycle holds a token, deepTick from
any of A, B, C, D fails with CycleDetected; and on the acyclic diamond net
deepTick from A succeeds without error even though D is reachable via two
paths. -/
theorem c6_cycle_detection :
    PetriNet.deepTick 100 cycleNet "A" = some (.error .cycleDetected) ∧
    PetriNet.deepTick 100 cycleAllNet "A" = some (.error .cycleDetected) ∧
    PetriNet.deepTick 100 cycleAllNet "B" = some (.error .cycleDetected) ∧
    PetriNet.deepTick 100 cycleAllNet "C" = some (.error .cycleDetected) ∧
    PetriNet.deepTick 100 cycleAllNet "D" = some (.error .cycleDetected) ∧
    isOkR (PetriNet.deepTick 100 diamondNet "A") = true :=
  ⟨rfl, rfl, rfl, rfl, rfl, rfl⟩

/-- Claim C7: with A=3, B=4, C=5, D=0, E=0 and T consuming {A:2, B:3, C:4}
and producing {D:1, E:1}, the first fire() returns true and yields
A=1, B=1, C=1, D=1, E=1; a second fire() returns false and leaves every
token count (indeed the whole net) unchanged. -/
theorem c7_concrete_fire :
    (Transition.fire c7Net c7T).1 = true ∧
    (Transition.fire c7Net c7T).2.1.tokensOf "A" = 1 ∧
    (Transition.fire c7Net c7T).2.1.tokensOf "B" = 1 ∧
    (Transition.fire c7Net c7T).2.1.tokensOf "C" = 1 ∧
    (Transition.fire c7Net c7T).2.1.tokensOf "D" = 1 ∧
    (Transition.fire c7Net c7T).2.1.tokensOf "E" = 1 ∧
    (Transition.fire (Transition.fire c7Net c7T).2.1 c7T).1 = false ∧
    (Transition.fire (Transition.fire c7Net c7T).2.1 c7T).2.1 =
      (Transition.fire c7Net c7T).2.1 :=
  ⟨rfl, rfl, rfl, rfl, rfl, rfl, rfl, rfl⟩

/-- Claim C8: after a successful merge, every place moved from the other
net is findable in the merged net with its pre-merge token count and its
installed change listener unchanged (merge rebuilds adjacency but never
touches `tokens_` or `on_change_` of a moved place). -/
theorem c8_merge_preserves_place_observables (net other : PetriNet)
    (ics : List TransitionSketch)
    (hnd : (other.places.map Place.id).Nodup)
    (hok : (PetriNet.merge net other ics).1 = .ok ()) :
    ∀ p ∈ other.places, ∃ q : Place,
      ((PetriNet.merge net other ics).2.1).findPlaceAcquired p.id = some q ∧
        q.tokens = p.tokens ∧ q.onChange = p.onChange := by
  intro p hp
  have hobs := merge_obsTok_ok net other ics hok p.id
  have hnone := mergeOk_findPlace_none net other ics hok p hp
  have hbase : obsTok { net with places := net.places ++ other.places.map clearAdj } p.id =
      some (p.tokens, p.onChange) := by
    unfold obsTok PetriNet.findPlaceAcquired
    rw [find?_append_of_none net.places _ hnone,
      find?_map_of_nodup clearAdj (fun _ => rfl) other.places p hnd hp]
    rfl
  rw [hbase] at hobs
  unfold obsTok at hobs
  cases hfind : ((PetriNet.merge net other ics).2.1).findPlaceAcquired p.id with
  | none => rw [hfind] at hobs; exact absurd hobs (by simp)
  | some q =>
    rw [hfind] at hobs
    simp only [Option.map_some', Option.some.injEq, Prod.mk.injEq] at hobs
    exact ⟨q, rfl, hobs.1, hobs.2⟩

/-- Witness for C8: merging a net owning B (7 tokens, listener installed,
one auto-firing transition) into a net owning A preserves B's tokens and
listener. -/
theorem c8_merge_preserves_place_observables_w :
    ∃ q : Place,
      ((PetriNet.merge c8Net1 c8Net2 []).2.1).findPlaceAcquired "B" = some q ∧
        q.tokens = 7 ∧ q.onChange = some 3 := by
  exact c8_merge_preserves_place_observables c8Net1 c8Net2 [] (by decide) rfl
    ((c8Net2.findPlaceAcquired "B").getD dummyP) (by decide)

/-- Claim C9: a transition with an empty input list is always ready and
always fires, adding each output pair's weight to its place on every call,
whatever the marking: after a fire, every place's count is its previous
count plus the total weight its id receives among the output pairs
(mod 2^32). -/
theorem c9_empty_inputs_always_fire (net : PetriNet) (t : Transition)
    (hin : t.ingoing = [])
    (hwf : ∀ p ∈ net.places, p.tokens < U32M) :
    Transition.readyAcquired net t = true ∧
    (Transition.fire net t).1 = true ∧
    ∀ pid, (net.findPlaceAcquired pid).isSome →
      (Transition.fire net t).2.1.tokensOf pid =
        (net.tokensOf pid + weightSumFor t.outgoing pid) % U32M := by
  have hready : Transition.readyAcquired net t = true := by
    unfold Transition.readyAcquired
    rw [hin]
    rfl
  refine ⟨hready, ?_, ?_⟩
  · rw [fire_eq_of_ready net t hready]
  · intro pid hsome
    rw [fire_eq_of_ready net t hready]
    show (t.outgoing.foldl (fireStep addU32)
      (t.ingoing.foldl (fireStep subU32) (net, []))).1.tokensOf pid = _
    rw [hin]
    have hlt : net.tokensOf pid < U32M := by
      obtain ⟨p, hpfind⟩ := Option.isSome_iff_exists.mp hsome
      have hmem : p ∈ net.places := List.mem_of_find?_eq_some hpfind
      unfold PetriNet.tokensOf
      rw [hpfind]
      exact hwf p hmem
    exact fireStep_foldl_addU32_sum t.outgoing net [] pid hsome hlt

/-- Witness for C9: the sourceless transition S (no inputs, outputs
{D:1, E:2}) on the fire() fixture is ready and fires, raising D by one. -/
theorem c9_empty_inputs_always_fire_w :
    Transition.readyAcquired c7Net c9T = true ∧
    (Transition.fire c7Net c9T).2.1.tokensOf "D" =
      (c7Net.tokensOf "D" + weightSumFor c9T.outgoing "D") % U32M := by
  obtain ⟨h1, _, h3⟩ := c9_empty_inputs_always_fire c7Net c9T rfl (by decide)
  exact ⟨h1, h3 "D" (by decide)⟩

/-- Claim C10: when fire() returns false (transition not ready), the
recorded notification list is empty — the failure path records no places —
and consequently no change listener is invoked at all. -/
theorem c10_failed_fire_no_notifications (net : PetriNet) (t : Transition)
    (h : (Transition.fire net t).1 = false) :
    (Transition.fire net t).2.1 = net ∧
    (Transition.fire net t).2.2 = [] ∧
    (Transition.fire net t).2.1.notifyRun (Transition.fire net t).2.2 = [] := by
  have hr : t.readyAcquired net = false := by
    cases hr : t.readyAcquired net with
    | false => rfl
    | true =>
      rw [fire_eq_of_ready net t hr] at h
      exact absurd h (by simp)
  rw [fire_of_not_ready net t hr]
  exact ⟨rfl, rfl, rfl⟩

/-- Witness for C10: the transition U demanding A≥5 on the fire() fixture
(A=3) is not ready; fire() records and notifies nothing. -/
theorem c10_failed_fire_no_notifications_w :
    (Transition.fire c7Net c10T).2.1 = c7Net ∧
    (Transition.fire c7Net c10T).2.2 = [] ∧
    (Transition.fire c7Net c10T).2.1.notifyRun (Transition.fire c7Net c10T).2.2 = [] :=
  c10_failed_fire_no_notifications c7Net c10T rfl

end SimplePTN

